import Mathlib

/-!
Verification model of the round_robin load-balancing policy from
src/core/ext/filters/client_channel/lb_policy/round_robin/round_robin.cc.

The C++ classes are shallowly embedded as Lean structures; the mutating
methods become pure functions from the old state to the new state, paired
with the list of externally visible effects (helper UpdateState calls,
re-resolution requests, connection requests).  Subchannels and addresses
are external collaborators and are represented by opaque identifiers.
-/

namespace RoundRobinModel

/-- Subchannels are external collaborators; each is an opaque identifier. -/
abbrev SubchannelId := Nat

/-- Addresses are opaque endpoint descriptors. -/
abbrev Address := Nat

/-- grpc_connectivity_state. -/
inductive ConnectivityState where
  | Idle
  | Connecting
  | Ready
  | TransientFailure
  | Shutdown
deriving DecidableEq, Repr

/-- The absl status codes appearing in round_robin.cc: OK (absl::Status()),
UNAVAILABLE (absl::UnavailableError), and a bucket for anything else a
resolver might report. -/
inductive StatusCode where
  | ok
  | unavailable
  | otherError
deriving DecidableEq, Repr

/-- absl::Status, reduced to the code and message that this file constructs
and forwards. -/
structure Status where
  code : StatusCode
  message : String
deriving DecidableEq, Repr

/-- absl::Status(), the OK status. -/
def okStatus : Status := ⟨.ok, ""⟩

/-- absl::UnavailableError. -/
def unavailableError (msg : String) : Status := ⟨.unavailable, msg⟩

/-- RoundRobinSubchannelData: one entry of a subchannel list.  The field
logical_connectivity_state_ is initialized to GRPC_CHANNEL_IDLE. -/
structure RoundRobinSubchannelData where
  subchannel : SubchannelId
  logicalConnectivityState : ConnectivityState := .Idle
deriving DecidableEq, Repr

/-- RoundRobinSubchannelList: ordered entries plus the per-state counters
num_ready_, num_connecting_, num_transient_failure_ (all initialized to 0).
The id field models the C++ object identity (the pointer value) used for the
pointer comparisons against the policy's two list slots. -/
structure RoundRobinSubchannelList where
  id : Nat
  subchannels : List RoundRobinSubchannelData
  numReady : Nat := 0
  numConnecting : Nat := 0
  numTransientFailure : Nat := 0
deriving DecidableEq, Repr

/-- num_subchannels(). -/
def RoundRobinSubchannelList.numSubchannels (l : RoundRobinSubchannelList) : Nat :=
  l.subchannels.length

/-- RoundRobinSubchannelList::UpdateStateCountersLocked.  The C++ code
GPR_ASSERTs that neither state is SHUTDOWN and that a counter is positive
before decrementing it; on every input satisfying those assertions the Nat
subtraction below agrees with the C++ size_t decrement. -/
def updateStateCountersLocked (l : RoundRobinSubchannelList)
    (oldState newState : ConnectivityState) : RoundRobinSubchannelList :=
  let l1 :=
    match oldState with
    | .Ready => { l with numReady := l.numReady - 1 }
    | .Connecting => { l with numConnecting := l.numConnecting - 1 }
    | .TransientFailure => { l with numTransientFailure := l.numTransientFailure - 1 }
    | _ => l
  match newState with
  | .Ready => { l1 with numReady := l1.numReady + 1 }
  | .Connecting => { l1 with numConnecting := l1.numConnecting + 1 }
  | .TransientFailure => { l1 with numTransientFailure := l1.numTransientFailure + 1 }
  | _ => l1

/-- RoundRobinSubchannelData::UpdateLogicalConnectivityStateLocked, for the
entry at position i of list l; returns the updated list together with the
bool result.  In C++ the entry index is always in range, so the none branch
is unreachable. -/
def updateLogicalConnectivityStateLocked (l : RoundRobinSubchannelList)
    (i : Nat) (connectivityState : ConnectivityState) :
    RoundRobinSubchannelList × Bool :=
  match l.subchannels[i]? with
  | none => (l, false)
  | some sd =>
    if sd.logicalConnectivityState = .TransientFailure ∧ connectivityState ≠ .Ready then
      (l, false)
    else
      let cs := if connectivityState = .Idle then .Connecting else connectivityState
      if sd.logicalConnectivityState = cs then (l, false)
      else
        ({ updateStateCountersLocked l sd.logicalConnectivityState cs with
            subchannels := l.subchannels.set i { sd with logicalConnectivityState := cs } },
         true)

/-- RoundRobin::Picker: the immutable snapshot plus the rotation cursor. -/
structure PickerSnapshot where
  subchannels : List SubchannelId
  lastPickedIndex : Nat
deriving DecidableEq, Repr

/-- RoundRobin::Picker::Picker: snapshot, in list order, the subchannel of
every entry whose logical state is READY; the initial cursor is
rand % size. -/
def mkPicker (subchannelList : RoundRobinSubchannelList) (rand : Nat) : PickerSnapshot :=
  let subs := (subchannelList.subchannels.filter
      (fun sd => sd.logicalConnectivityState == .Ready)).map
      (fun sd => sd.subchannel)
  { subchannels := subs, lastPickedIndex := rand % subs.length }

/-- LoadBalancingPolicy::PickResult. -/
inductive PickResult where
  | complete (subchannel : SubchannelId)
  | queue
  | fail (status : Status)
deriving DecidableEq, Repr

/-- RoundRobin::Picker::Pick: advance the cursor by one modulo the snapshot
size and return the subchannel at the new cursor. -/
def PickerSnapshot.Pick (pk : PickerSnapshot) : PickerSnapshot × PickResult :=
  let idx := (pk.lastPickedIndex + 1) % pk.subchannels.length
  ({ pk with lastPickedIndex := idx }, .complete (pk.subchannels.getD idx 0))

/-- k consecutive Pick calls (no concurrent picks). -/
def PickerSnapshot.pickN : PickerSnapshot → Nat → PickerSnapshot × List PickResult
  | pk, 0 => (pk, [])
  | pk, k + 1 =>
    let r := pk.Pick
    let rest := r.1.pickN k
    (rest.1, r.2 :: rest.2)

/-- The picker argument of a helper UpdateState call: a fresh round-robin
Picker, the QueuePicker placeholder, or the TransientFailurePicker
placeholder. -/
inductive HelperPicker where
  | roundRobin (picker : PickerSnapshot)
  | queuePicker
  | transientFailurePicker (status : Status)
deriving DecidableEq, Repr

/-- One call to channel_control_helper()->UpdateState(state, status, picker). -/
structure StateReport where
  state : ConnectivityState
  status : Status
  picker : HelperPicker
deriving DecidableEq, Repr

/-- Externally visible effects on the collaborators. -/
inductive Effect where
  | reportState (report : StateReport)
  | requestReresolution
  | requestConnection (subchannel : SubchannelId)
  | startWatch (subchannel : SubchannelId)
  | resetBackoff (subchannel : SubchannelId)
deriving DecidableEq, Repr

/-- The RoundRobin policy: the active list slot subchannel_list_, the
pending slot latest_pending_subchannel_list_, and the shutdown flag.
nextListId supplies fresh identities for newly allocated lists. -/
structure RoundRobin where
  subchannelList : Option RoundRobinSubchannelList := none
  latestPendingSubchannelList : Option RoundRobinSubchannelList := none
  shutdown : Bool := false
  nextListId : Nat := 0
deriving DecidableEq, Repr

/-- C++ pointer comparison between a list slot and this. -/
def sameListPtr (slot : Option RoundRobinSubchannelList)
    (self : RoundRobinSubchannelList) : Bool :=
  match slot with
  | some l => l.id == self.id
  | none => false

/-- RoundRobinSubchannelList::MaybeUpdateRoundRobinConnectivityStateLocked,
run on the list self.  Returns the policy after the possible promotion and
the UpdateState call made, if any.  rand feeds the Picker constructor. -/
def maybeUpdateRoundRobinConnectivityStateLocked (p : RoundRobin)
    (self : RoundRobinSubchannelList) (statusForTf : Status) (rand : Nat) :
    RoundRobin × Option StateReport :=
  let promote : Bool :=
    sameListPtr p.latestPendingSubchannelList self &&
      (p.subchannelList.isNone ||
        (match p.subchannelList with
         | some a => a.numReady == 0
         | none => true) ||
        decide (0 < self.numReady) ||
        self.numTransientFailure == self.numSubchannels)
  let p1 :=
    if promote then
      { p with subchannelList := some self, latestPendingSubchannelList := none }
    else p
  if sameListPtr p1.subchannelList self then
    if 0 < self.numReady then
      (p1, some ⟨.Ready, okStatus, .roundRobin (mkPicker self rand)⟩)
    else if 0 < self.numConnecting then
      (p1, some ⟨.Connecting, okStatus, .queuePicker⟩)
    else if self.numTransientFailure = self.numSubchannels then
      (p1, some ⟨.TransientFailure, statusForTf, .transientFailurePicker statusForTf⟩)
    else (p1, none)
  else (p1, none)

/-- Which of the policy's two list slots a list lives in. -/
inductive Slot where
  | active
  | pending
deriving DecidableEq, Repr

/-- Read a list slot. -/
def slotList (p : RoundRobin) : Slot → Option RoundRobinSubchannelList
  | .active => p.subchannelList
  | .pending => p.latestPendingSubchannelList

/-- Write a list slot. -/
def setSlot (p : RoundRobin) (s : Slot) (l : RoundRobinSubchannelList) : RoundRobin :=
  match s with
  | .active => { p with subchannelList := some l }
  | .pending => { p with latestPendingSubchannelList := some l }

/-- Wrap an optional UpdateState call as an effect list. -/
def reportEffects (r : Option StateReport) : List Effect :=
  match r with
  | some rep => [Effect.reportState rep]
  | none => []

/-- The first loop of StartWatchingLocked: synchronously poll each entry's
raw state (poll i models subchannel(i)->CheckConnectivityStateLocked()) and
fold every non-IDLE polled state into the entry's logical state. -/
def syncPollPhase (l : RoundRobinSubchannelList)
    (poll : Nat → ConnectivityState) : RoundRobinSubchannelList :=
  (List.range l.subchannels.length).foldl
    (fun acc i =>
      if poll i ≠ .Idle then (updateLogicalConnectivityStateLocked acc i (poll i)).1
      else acc)
    l

/-- RoundRobinSubchannelList::StartWatchingLocked on the list held in the
given slot: the synchronous poll loop, then the watch-registration loop
(which starts a watch and requests a connection for every entry), then one
run of the promotion-and-aggregation procedure.  In this model every entry
has a subchannel handle; the C++ null check on subchannel(i)->subchannel()
guards a creation failure that happens in subchannel_list.h, outside this
file. -/
def startWatchingLocked (p : RoundRobin) (slot : Slot)
    (poll : Nat → ConnectivityState) (statusForTf : Status) (rand : Nat) :
    RoundRobin × List Effect :=
  match slotList p slot with
  | none => (p, [])
  | some l =>
    let l1 := syncPollPhase l poll
    let watchEffects := l1.subchannels.flatMap
      (fun sd => [Effect.startWatch sd.subchannel, Effect.requestConnection sd.subchannel])
    let p1 := setSlot p slot l1
    let res := maybeUpdateRoundRobinConnectivityStateLocked p1 l1 statusForTf rand
    (res.1, watchEffects ++ reportEffects res.2)

/-- RoundRobinSubchannelData::ProcessConnectivityChangeLocked for entry i of
the list in the given slot: the TRANSIENT_FAILURE/IDLE self-healing trigger,
then the logical-state update, then (only when the state changed) the
promotion-and-aggregation procedure with the synthesized all-backends-failing
status. -/
def processConnectivityChangeLocked (p : RoundRobin) (slot : Slot) (i : Nat)
    (connectivityState : ConnectivityState) (rand : Nat) :
    RoundRobin × List Effect :=
  match slotList p slot with
  | none => (p, [])
  | some l =>
    match l.subchannels[i]? with
    | none => (p, [])
    | some sd =>
      let reresolveEffects :=
        if connectivityState = .TransientFailure ∨ connectivityState = .Idle then
          [Effect.requestReresolution, Effect.requestConnection sd.subchannel]
        else []
      let res := updateLogicalConnectivityStateLocked l i connectivityState
      let p1 := setSlot p slot res.1
      if res.2 then
        let res2 := maybeUpdateRoundRobinConnectivityStateLocked p1 res.1
          (unavailableError ("connections to all backends failing")) rand
        (res2.1, reresolveEffects ++ reportEffects res2.2)
      else (p1, reresolveEffects)

/-- The addresses field of LoadBalancingPolicy::UpdateArgs: a StatusOr. -/
inductive AddressesResult where
  | ok (addresses : List Address)
  | err (status : Status)
deriving DecidableEq, Repr

/-- LoadBalancingPolicy::UpdateArgs (the channel args carry nothing this
model observes). -/
structure UpdateArgs where
  addresses : AddressesResult
  resolutionNote : String
deriving DecidableEq, Repr

/-- External inputs consumed while processing one update: subchannel
creation (done by the SubchannelList constructor in subchannel_list.h), the
synchronous polls, and the random value for a Picker built during the
update. -/
structure Env where
  createSubchannel : Address → SubchannelId
  poll : Nat → ConnectivityState
  rand : Nat

/-- The status RoundRobin::UpdateLocked passes to StartWatchingLocked:
a synthesized empty-address-list status when the address result was
successful, the resolver's own status otherwise. -/
def resolverStatusForTf (args : UpdateArgs) : Status :=
  match args.addresses with
  | .ok _ => unavailableError ("empty address list: " ++ args.resolutionNote)
  | .err st => st

/-- RoundRobin::UpdateLocked. -/
def updateLocked (p : RoundRobin) (args : UpdateArgs) (env : Env) :
    RoundRobin × List Effect :=
  let proceed : Option (List Address) :=
    match args.addresses with
    | .ok addrs => some addrs
    | .err _ => if p.subchannelList.isSome then none else some []
  match proceed with
  | none => (p, [])
  | some addresses =>
    let newList : RoundRobinSubchannelList :=
      { id := p.nextListId
        subchannels := addresses.map (fun a => { subchannel := env.createSubchannel a }) }
    let p1 := { p with
      latestPendingSubchannelList := some newList
      nextListId := p.nextListId + 1 }
    startWatchingLocked p1 .pending env.poll (resolverStatusForTf args) env.rand

/-- RoundRobin::ShutdownLocked: set the shutdown flag (which no other method
of the file ever reads) and destroy both lists. -/
def shutdownLocked (p : RoundRobin) : RoundRobin :=
  { p with shutdown := true, subchannelList := none, latestPendingSubchannelList := none }

/-- RoundRobin::ResetBackoffLocked.  subchannel_list_->ResetBackoffLocked()
dereferences the active-list pointer unconditionally, so none models the
null-pointer crash when no active list exists.  The per-list forwarding is
modelled from the spec: SubchannelList::ResetBackoffLocked lives in
subchannel_list.h, outside this file, and per the spec forwards the reset to
every subchannel of the list. -/
def resetBackoffLocked (p : RoundRobin) : Option (RoundRobin × List Effect) :=
  match p.subchannelList with
  | none => none
  | some l =>
    let pendingEffects :=
      match p.latestPendingSubchannelList with
      | some lp => lp.subchannels.map (fun sd => Effect.resetBackoff sd.subchannel)
      | none => []
    some (p, l.subchannels.map (fun sd => Effect.resetBackoff sd.subchannel) ++ pendingEffects)

/-- A newly constructed RoundRobinSubchannelList over the given subchannels:
every entry IDLE, all counters 0. -/
def freshList (id : Nat) (subs : List SubchannelId) : RoundRobinSubchannelList :=
  { id := id, subchannels := subs.map (fun s => { subchannel := s }) }

/-- Number of entries of l whose logical state is s. -/
def countState (l : RoundRobinSubchannelList) (s : ConnectivityState) : Nat :=
  l.subchannels.countP (fun sd => sd.logicalConnectivityState == s)

/-- The three counters agree with the actual entry states. -/
def countersAccurate (l : RoundRobinSubchannelList) : Prop :=
  l.numReady = countState l .Ready ∧
  l.numConnecting = countState l .Connecting ∧
  l.numTransientFailure = countState l .TransientFailure

/-- Fold a sequence of raw notifications (entry index, raw state) into a
list via the logical-state update function. -/
def applyNotifications (l : RoundRobinSubchannelList)
    (events : List (Nat × ConnectivityState)) : RoundRobinSubchannelList :=
  events.foldl (fun acc e => (updateLogicalConnectivityStateLocked acc e.1 e.2).1) l

end RoundRobinModel


namespace RoundRobinModel

/-- One Pick call advances the cursor to (c + 1) mod n and returns the
snapshot element at the new cursor. -/
lemma Pick_eq (pk : PickerSnapshot) :
    pk.Pick =
      ({ pk with lastPickedIndex := (pk.lastPickedIndex + 1) % pk.subchannels.length },
       PickResult.complete
         (pk.subchannels.getD ((pk.lastPickedIndex + 1) % pk.subchannels.length) 0)) := rfl

/-- k consecutive Pick calls leave the snapshot unchanged and move the
cursor by k modulo the snapshot size. -/
lemma pickN_state (k : Nat) :
    ∀ pk : PickerSnapshot, 0 < pk.subchannels.length →
      pk.lastPickedIndex < pk.subchannels.length →
      (pk.pickN k).1 =
        { pk with lastPickedIndex := (pk.lastPickedIndex + k) % pk.subchannels.length } := by
  induction k with
  | zero =>
    intro pk hn hc
    simp [PickerSnapshot.pickN, Nat.mod_eq_of_lt hc]
  | succ k ih =>
    intro pk hn hc
    have hc1 : (pk.lastPickedIndex + 1) % pk.subchannels.length < pk.subchannels.length :=
      Nat.mod_lt _ hn
    have hstep : (pk.pickN (k + 1)).1 =
        (({ pk with lastPickedIndex :=
            (pk.lastPickedIndex + 1) % pk.subchannels.length } : PickerSnapshot).pickN k).1 := rfl
    rw [hstep, ih { pk with lastPickedIndex :=
      (pk.lastPickedIndex + 1) % pk.subchannels.length } hn hc1]
    have hcur : ((pk.lastPickedIndex + 1) % pk.subchannels.length + k) % pk.subchannels.length =
        (pk.lastPickedIndex + (k + 1)) % pk.subchannels.length := by
      rw [Nat.mod_add_mod]
      congr 1
      omega
    simp only [hcur]

/-- k consecutive Pick calls produce exactly k results. -/
lemma pickN_length (k : Nat) :
    ∀ pk : PickerSnapshot, (pk.pickN k).2.length = k := by
  induction k with
  | zero => intro pk; rfl
  | succ k ih =>
    intro pk
    have hstep : (pk.pickN (k + 1)).2 = (pk.Pick).2 :: ((pk.Pick).1.pickN k).2 := rfl
    rw [hstep]
    simp [ih]

/-- The j-th of k consecutive Pick results is the snapshot element at
position (c + 1 + j) mod n. -/
lemma pickN_get (k : Nat) :
    ∀ (pk : PickerSnapshot) (j : Nat), 0 < pk.subchannels.length →
      pk.lastPickedIndex < pk.subchannels.length →
      ∀ hj : j < (pk.pickN k).2.length,
      (pk.pickN k).2.get ⟨j, hj⟩ =
        PickResult.complete (pk.subchannels.getD
          ((pk.lastPickedIndex + 1 + j) % pk.subchannels.length) 0) := by
  induction k with
  | zero =>
    intro pk j hn hc hj
    rw [pickN_length] at hj
    omega
  | succ k ih =>
    intro pk j hn hc hj
    have hc1 : (pk.lastPickedIndex + 1) % pk.subchannels.length < pk.subchannels.length :=
      Nat.mod_lt _ hn
    have hstep : (pk.pickN (k + 1)).2 =
        PickResult.complete
            (pk.subchannels.getD ((pk.lastPickedIndex + 1) % pk.subchannels.length) 0) ::
          (({ pk with lastPickedIndex :=
              (pk.lastPickedIndex + 1) % pk.subchannels.length } : PickerSnapshot).pickN k).2 := rfl
    match j with
    | 0 =>
      rw [List.get_of_eq hstep]
      simp
    | j + 1 =>
      have hjlen : j < (({ pk with lastPickedIndex :=
          (pk.lastPickedIndex + 1) % pk.subchannels.length } : PickerSnapshot).pickN k).2.length := by
        rw [pickN_length] at hj ⊢
        omega
      have htail := ih { pk with lastPickedIndex :=
          (pk.lastPickedIndex + 1) % pk.subchannels.length } j hn hc1 hjlen
      have hidx : ((pk.lastPickedIndex + 1) % pk.subchannels.length + 1 + j) %
            pk.subchannels.length =
          (pk.lastPickedIndex + 1 + (j + 1)) % pk.subchannels.length := by
        rw [Nat.add_assoc ((pk.lastPickedIndex + 1) % pk.subchannels.length) 1 j,
          Nat.mod_add_mod]
        congr 1
        omega
      rw [hidx] at htail
      rw [List.get_of_eq hstep, List.get_cons_succ]
      exact htail

/-- getD with an in-range index reads the list element. -/
lemma getD_zero_eq_get (l : List Nat) (i : Nat) (h : i < l.length) :
    l.getD i 0 = l.get ⟨i, h⟩ := by
  simp [List.getD_eq_getElem?_getD, List.getElem?_eq_getElem h]

/-- A full cycle of Pick calls returns the snapshot rotated to one past the
initial cursor. -/
lemma pickN_eq_rotate (pk : PickerSnapshot)
    (hn : 0 < pk.subchannels.length) (hc : pk.lastPickedIndex < pk.subchannels.length) :
    (pk.pickN pk.subchannels.length).2 =
      (pk.subchannels.rotate ((pk.lastPickedIndex + 1) % pk.subchannels.length)).map
        PickResult.complete := by
  apply List.ext_get
  · rw [pickN_length]
    simp
  · intro j h1 h2
    rw [pickN_get _ pk j hn hc h1, List.get_map, List.get_rotate]
    
    have hlt : (pk.lastPickedIndex + 1 + j) % pk.subchannels.length <
        pk.subchannels.length := Nat.mod_lt _ hn
    rw [getD_zero_eq_get _ _ hlt]
    simp only [List.get_eq_getElem, Fin.val_mk]
    congr 1
    rw [← Option.some_inj, ← List.getElem?_eq_getElem, ← List.getElem?_eq_getElem,
      Nat.add_comm j ((pk.lastPickedIndex + 1) % pk.subchannels.length), Nat.mod_add_mod]

/-- Claim C3: for every Picker whose snapshot holds n >= 1 subchannels and
whose cursor is c (in range, as guaranteed by the constructor), Pick sets
the cursor to (c + 1) mod n and returns the subchannel at that position;
n consecutive Pick calls return each of the n subchannels exactly once,
starting one past the initial offset (the outputs are the snapshot rotated
by (c + 1) mod n), and the sequence repeats with period n (after n picks
the picker state is back to the initial one). -/
theorem rr_C3 (pk : PickerSnapshot)
    (hn : 0 < pk.subchannels.length)
    (hc : pk.lastPickedIndex < pk.subchannels.length) :
    (pk.Pick).1 =
      { pk with lastPickedIndex := (pk.lastPickedIndex + 1) % pk.subchannels.length } ∧
    (pk.Pick).2 = PickResult.complete
      (pk.subchannels.getD ((pk.lastPickedIndex + 1) % pk.subchannels.length) 0) ∧
    (pk.pickN pk.subchannels.length).2 =
      (pk.subchannels.rotate ((pk.lastPickedIndex + 1) % pk.subchannels.length)).map
        PickResult.complete ∧
    ((pk.pickN pk.subchannels.length).2).Perm (pk.subchannels.map PickResult.complete) ∧
    (pk.pickN pk.subchannels.length).1 = pk := by
  refine ⟨rfl, rfl, pickN_eq_rotate pk hn hc, ?_, ?_⟩
  · rw [pickN_eq_rotate pk hn hc]
    exact (List.rotate_perm _ _).map _
  · rw [pickN_state _ pk hn hc]
    have hfull : (pk.lastPickedIndex + pk.subchannels.length) % pk.subchannels.length =
        pk.lastPickedIndex := by
      rw [Nat.add_mod_right]
      exact Nat.mod_eq_of_lt hc
    simp only [hfull]

/-- Concrete witness for rr_C3 on the snapshot [10, 20, 30] with cursor 1. -/
def pkW : PickerSnapshot := ⟨[10, 20, 30], 1⟩

theorem rr_C3_witness :
    (pkW.Pick).1 = { pkW with lastPickedIndex := 2 } ∧
    (pkW.Pick).2 = PickResult.complete 30 ∧
    (pkW.pickN 3).2 = ([30, 10, 20]).map PickResult.complete ∧
    ((pkW.pickN 3).2).Perm ([10, 20, 30].map PickResult.complete) ∧
    (pkW.pickN 3).1 = pkW :=
  rr_C3 pkW (by decide) (by decide)

/-- Claim C10: for every round-robin Picker with a non-empty snapshot, a
Pick call returns a complete result carrying a subchannel from the
snapshot, and never a queue or fail outcome. -/
theorem rr_C10 (pk : PickerSnapshot) (hn : 0 < pk.subchannels.length) :
    ∃ s, s ∈ pk.subchannels ∧ (pk.Pick).2 = PickResult.complete s ∧
      (pk.Pick).2 ≠ PickResult.queue ∧ ∀ st, (pk.Pick).2 ≠ PickResult.fail st := by
  have hidx : (pk.lastPickedIndex + 1) % pk.subchannels.length < pk.subchannels.length :=
    Nat.mod_lt _ hn
  refine ⟨pk.subchannels.get ⟨(pk.lastPickedIndex + 1) % pk.subchannels.length, hidx⟩,
    List.get_mem _ _ _, ?_, by simp [PickerSnapshot.Pick], by intro st; simp [PickerSnapshot.Pick]⟩
  show PickResult.complete
      (pk.subchannels.getD ((pk.lastPickedIndex + 1) % pk.subchannels.length) 0) = _
  rw [getD_zero_eq_get _ _ hidx]

theorem rr_C10_witness :
    ∃ s, s ∈ pkW.subchannels ∧ (pkW.Pick).2 = PickResult.complete s ∧
      (pkW.Pick).2 ≠ PickResult.queue ∧ ∀ st, (pkW.Pick).2 ≠ PickResult.fail st :=
  rr_C10 pkW (by decide)

/-- Equation: out-of-range entry index (unreachable in C++). -/
lemma updateLogical_none (l : RoundRobinSubchannelList) (i : Nat)
    (raw : ConnectivityState) (h : l.subchannels[i]? = none) :
    updateLogicalConnectivityStateLocked l i raw = (l, false) := by
  simp only [updateLogicalConnectivityStateLocked, h]

/-- Equation: sticky TRANSIENT_FAILURE ignores everything but READY. -/
lemma updateLogical_sticky (l : RoundRobinSubchannelList) (i : Nat)
    (raw : ConnectivityState) (sd : RoundRobinSubchannelData)
    (h : l.subchannels[i]? = some sd)
    (h1 : sd.logicalConnectivityState = .TransientFailure) (h2 : raw ≠ .Ready) :
    updateLogicalConnectivityStateLocked l i raw = (l, false) := by
  simp only [updateLogicalConnectivityStateLocked, h]
  rw [if_pos ⟨h1, h2⟩]

/-- Equation: no logical change after folding IDLE into CONNECTING. -/
lemma updateLogical_noChange (l : RoundRobinSubchannelList) (i : Nat)
    (raw : ConnectivityState) (sd : RoundRobinSubchannelData)
    (h : l.subchannels[i]? = some sd)
    (h1 : ¬(sd.logicalConnectivityState = .TransientFailure ∧ raw ≠ .Ready))
    (h2 : sd.logicalConnectivityState = (if raw = .Idle then .Connecting else raw)) :
    updateLogicalConnectivityStateLocked l i raw = (l, false) := by
  simp only [updateLogicalConnectivityStateLocked, h]
  rw [if_neg h1, if_pos h2]

/-- Equation: a real logical transition updates the counters and the entry
and returns true. -/
lemma updateLogical_change (l : RoundRobinSubchannelList) (i : Nat)
    (raw : ConnectivityState) (sd : RoundRobinSubchannelData)
    (h : l.subchannels[i]? = some sd)
    (h1 : ¬(sd.logicalConnectivityState = .TransientFailure ∧ raw ≠ .Ready))
    (h2 : sd.logicalConnectivityState ≠ (if raw = .Idle then .Connecting else raw)) :
    updateLogicalConnectivityStateLocked l i raw =
      ({ updateStateCountersLocked l sd.logicalConnectivityState
            (if raw = .Idle then .Connecting else raw) with
          subchannels := l.subchannels.set i
            { sd with logicalConnectivityState :=
                (if raw = .Idle then .Connecting else raw) } },
       true) := by
  simp only [updateLogicalConnectivityStateLocked, h]
  rw [if_neg h1, if_neg h2]

/-- Delivering the same raw state twice in a row: the second delivery never
changes anything and returns false. -/
lemma updateLogical_idem (l : RoundRobinSubchannelList) (i : Nat)
    (raw : ConnectivityState) :
    updateLogicalConnectivityStateLocked
        (updateLogicalConnectivityStateLocked l i raw).1 i raw =
      ((updateLogicalConnectivityStateLocked l i raw).1, false) := by
  cases h : l.subchannels[i]? with
  | none =>
    rw [updateLogical_none l i raw h]
    exact updateLogical_none l i raw h
  | some sd =>
    by_cases h1 : sd.logicalConnectivityState = .TransientFailure ∧ raw ≠ .Ready
    · rw [updateLogical_sticky l i raw sd h h1.1 h1.2]
      exact updateLogical_sticky l i raw sd h h1.1 h1.2
    · by_cases h2 : sd.logicalConnectivityState = (if raw = .Idle then .Connecting else raw)
      · rw [updateLogical_noChange l i raw sd h h1 h2]
        exact updateLogical_noChange l i raw sd h h1 h2
      · rw [updateLogical_change l i raw sd h h1 h2]
        have hi : i < l.subchannels.length := by
          rcases List.getElem?_eq_some.1 h with ⟨hlt, _⟩
          exact hlt
        have h' : (l.subchannels.set i
              { sd with logicalConnectivityState :=
                  (if raw = .Idle then .Connecting else raw) })[i]? =
            some { sd with logicalConnectivityState :=
                  (if raw = .Idle then .Connecting else raw) } :=
          List.getElem?_set_self hi
        by_cases h3 : (if raw = .Idle then ConnectivityState.Connecting else raw) =
            .TransientFailure ∧ raw ≠ .Ready
        · exact updateLogical_sticky _ i raw _ h' h3.1 h3.2
        · exact updateLogical_noChange _ i raw _ h' h3 rfl

/-- Claim C4: UpdateLogicalConnectivityStateLocked behaves exactly as
specified for every entry and raw state: sticky TRANSIENT_FAILURE ignores a
non-READY raw state and returns false; raw IDLE is folded into CONNECTING;
an unchanged resulting state changes nothing and returns false; otherwise
the counters are updated from old to new state, the new logical state is
stored, and true is returned; delivering the same raw state twice in a row
changes state only on the first delivery. -/
theorem rr_C4 (l : RoundRobinSubchannelList) (i : Nat) (raw : ConnectivityState)
    (e : RoundRobinSubchannelData) (he : l.subchannels[i]? = some e) :
    (e.logicalConnectivityState = .TransientFailure → raw ≠ .Ready →
      updateLogicalConnectivityStateLocked l i raw = (l, false)) ∧
    (¬(e.logicalConnectivityState = .TransientFailure ∧ raw ≠ .Ready) →
      e.logicalConnectivityState = (if raw = .Idle then .Connecting else raw) →
      updateLogicalConnectivityStateLocked l i raw = (l, false)) ∧
    (¬(e.logicalConnectivityState = .TransientFailure ∧ raw ≠ .Ready) →
      e.logicalConnectivityState ≠ (if raw = .Idle then .Connecting else raw) →
      updateLogicalConnectivityStateLocked l i raw =
        ({ updateStateCountersLocked l e.logicalConnectivityState
              (if raw = .Idle then .Connecting else raw) with
            subchannels := l.subchannels.set i
              { e with logicalConnectivityState :=
                  (if raw = .Idle then .Connecting else raw) } },
         true)) ∧
    (updateLogicalConnectivityStateLocked
        (updateLogicalConnectivityStateLocked l i raw).1 i raw =
      ((updateLogicalConnectivityStateLocked l i raw).1, false)) :=
  ⟨fun h1 h2 => updateLogical_sticky l i raw e he h1 h2,
   fun h1 h2 => updateLogical_noChange l i raw e he h1 h2,
   fun h1 h2 => updateLogical_change l i raw e he h1 h2,
   updateLogical_idem l i raw⟩

/-- One-entry list used by several concrete witnesses. -/
def lC4 : RoundRobinSubchannelList := freshList 0 [7]

theorem rr_C4_witness :
    updateLogicalConnectivityStateLocked lC4 0 .Ready =
      ({ updateStateCountersLocked lC4 .Idle .Ready with
          subchannels := lC4.subchannels.set 0 ⟨7, .Ready⟩ }, true) :=
  (rr_C4 lC4 0 .Ready ⟨7, .Idle⟩ rfl).2.2.1 (by decide) (by decide)

/-- The policy part of the promotion-and-aggregation procedure: the
aggregation never changes the policy, so the resulting policy is determined
by the promotion guard alone. -/
lemma maybeUpdate_fst (p : RoundRobin) (self : RoundRobinSubchannelList)
    (st : Status) (rand : Nat) :
    (maybeUpdateRoundRobinConnectivityStateLocked p self st rand).1 =
      if (sameListPtr p.latestPendingSubchannelList self &&
          (p.subchannelList.isNone ||
            (match p.subchannelList with
             | some a => a.numReady == 0
             | none => true) ||
            decide (0 < self.numReady) ||
            self.numTransientFailure == self.numSubchannels)) = true then
        { p with subchannelList := some self, latestPendingSubchannelList := none }
      else p := by
  unfold maybeUpdateRoundRobinConnectivityStateLocked
  dsimp only
  split
  all_goals split
  all_goals try rfl
  all_goals split
  all_goals try rfl
  all_goals split
  all_goals try rfl
  all_goals split
  all_goals rfl

/-- The report part of the promotion-and-aggregation procedure, as a single
equation (shared by several claim proofs). -/
lemma maybeUpdate_snd (p : RoundRobin) (self : RoundRobinSubchannelList)
    (st : Status) (rand : Nat) :
    (maybeUpdateRoundRobinConnectivityStateLocked p self st rand).2 =
      if sameListPtr
          (maybeUpdateRoundRobinConnectivityStateLocked p self st rand).1.subchannelList
          self then
        if 0 < self.numReady then
          some ⟨.Ready, okStatus, .roundRobin (mkPicker self rand)⟩
        else if 0 < self.numConnecting then
          some ⟨.Connecting, okStatus, .queuePicker⟩
        else if self.numTransientFailure = self.numSubchannels then
          some ⟨.TransientFailure, st, .transientFailurePicker st⟩
        else none
      else none := by
  rw [maybeUpdate_fst]
  unfold maybeUpdateRoundRobinConnectivityStateLocked
  dsimp only
  split
  all_goals split
  all_goals try rfl
  all_goals split
  all_goals try rfl
  all_goals split
  all_goals try rfl
  all_goals split
  all_goals rfl

/-- Claim C2: the promotion-and-aggregation procedure emits a report only
when the list it ran on is now the active list, and the report follows the
first-match-wins precedence: numReady positive reports READY with a fresh
Picker over this list, else numConnecting positive reports CONNECTING with
the queue placeholder, else numTransientFailure equal to the entry count
reports TRANSIENT_FAILURE with the fail-fast placeholder carrying the given
status; otherwise no report. -/
theorem rr_C2 (p : RoundRobin) (self : RoundRobinSubchannelList)
    (st : Status) (rand : Nat) :
    (maybeUpdateRoundRobinConnectivityStateLocked p self st rand).2 =
      if sameListPtr
          (maybeUpdateRoundRobinConnectivityStateLocked p self st rand).1.subchannelList
          self then
        if 0 < self.numReady then
          some ⟨.Ready, okStatus, .roundRobin (mkPicker self rand)⟩
        else if 0 < self.numConnecting then
          some ⟨.Connecting, okStatus, .queuePicker⟩
        else if self.numTransientFailure = self.numSubchannels then
          some ⟨.TransientFailure, st, .transientFailurePicker st⟩
        else none
      else none :=
  maybeUpdate_snd p self st rand

/-- With accurate counters, a positive READY counter means some entry is
READY. -/
lemma acc_ready_pos (l : RoundRobinSubchannelList) (h : countersAccurate l) :
    0 < l.numReady ↔ ∃ sd ∈ l.subchannels, sd.logicalConnectivityState = .Ready := by
  rw [h.1]
  unfold countState
  rw [List.countP_pos_iff]
  simp

/-- With accurate counters, a zero READY counter means no entry is READY. -/
lemma acc_ready_zero (l : RoundRobinSubchannelList) (h : countersAccurate l) :
    l.numReady = 0 ↔ ∀ sd ∈ l.subchannels, sd.logicalConnectivityState ≠ .Ready := by
  rw [h.1]
  unfold countState
  rw [List.countP_eq_zero]
  simp

/-- With accurate counters, the TRANSIENT_FAILURE counter equals the entry
count exactly when every entry is TRANSIENT_FAILURE. -/
lemma acc_tf_all (l : RoundRobinSubchannelList) (h : countersAccurate l) :
    l.numTransientFailure = l.numSubchannels ↔
      ∀ sd ∈ l.subchannels, sd.logicalConnectivityState = .TransientFailure := by
  rw [h.2.2]
  unfold countState RoundRobinSubchannelList.numSubchannels
  rw [List.countP_eq_length]
  simp

/-- The promotion guard in counter form, for a list that is the pending
list. -/
lemma promote_true_iff (p : RoundRobin) (self : RoundRobinSubchannelList)
    (hpend : p.latestPendingSubchannelList = some self) :
    (sameListPtr p.latestPendingSubchannelList self &&
      (p.subchannelList.isNone ||
        (match p.subchannelList with
         | some a => a.numReady == 0
         | none => true) ||
        decide (0 < self.numReady) ||
        self.numTransientFailure == self.numSubchannels)) = true ↔
    (p.subchannelList = none ∨
      (∃ a, p.subchannelList = some a ∧ a.numReady = 0) ∨
      0 < self.numReady ∨
      self.numTransientFailure = self.numSubchannels) := by
  rw [hpend]
  cases hsl : p.subchannelList with
  | none => simp [sameListPtr]
  | some a =>
    simp [sameListPtr]
    exact or_assoc

/-- Claim C1: when the promotion-and-aggregation procedure runs on the
policy's pending list, that list becomes the new active list (and the
pending slot is emptied, discarding the previous active list) if and only
if there is no active list, or the active list has zero READY entries, or
this list has at least one READY entry, or every entry of this list is
TRANSIENT_FAILURE (vacuously true for an empty list); and running the
procedure on a list that is not the pending list never changes the policy's
lists at all. -/
theorem rr_C1 (p : RoundRobin) (self : RoundRobinSubchannelList)
    (st : Status) (rand : Nat) :
    (p.latestPendingSubchannelList = some self →
      countersAccurate self →
      (∀ a, p.subchannelList = some a → countersAccurate a) →
      (((maybeUpdateRoundRobinConnectivityStateLocked p self st rand).1.subchannelList
            = some self ∧
        (maybeUpdateRoundRobinConnectivityStateLocked p self st
            rand).1.latestPendingSubchannelList = none) ↔
       (p.subchannelList = none ∨
        (∃ a, p.subchannelList = some a ∧
          ∀ sd ∈ a.subchannels, sd.logicalConnectivityState ≠ .Ready) ∨
        (∃ sd ∈ self.subchannels, sd.logicalConnectivityState = .Ready) ∨
        (∀ sd ∈ self.subchannels, sd.logicalConnectivityState = .TransientFailure)))) ∧
    ((∀ l, p.latestPendingSubchannelList = some l → l.id ≠ self.id) →
      (maybeUpdateRoundRobinConnectivityStateLocked p self st rand).1 = p) := by
  constructor
  · intro hpend hacc haccA
    rw [maybeUpdate_fst]
    have hconv : (p.subchannelList = none ∨
        (∃ a, p.subchannelList = some a ∧
          ∀ sd ∈ a.subchannels, sd.logicalConnectivityState ≠ .Ready) ∨
        (∃ sd ∈ self.subchannels, sd.logicalConnectivityState = .Ready) ∨
        (∀ sd ∈ self.subchannels, sd.logicalConnectivityState = .TransientFailure)) ↔
        (p.subchannelList = none ∨
        (∃ a, p.subchannelList = some a ∧ a.numReady = 0) ∨
        0 < self.numReady ∨
        self.numTransientFailure = self.numSubchannels) := by
      apply or_congr Iff.rfl
      apply or_congr ?_ (or_congr ?_ ?_)
      · constructor
        · rintro ⟨a, ha, hall⟩
          exact ⟨a, ha, (acc_ready_zero a (haccA a ha)).2 hall⟩
        · rintro ⟨a, ha, hz⟩
          exact ⟨a, ha, (acc_ready_zero a (haccA a ha)).1 hz⟩
      · exact (acc_ready_pos self hacc).symm
      · exact (acc_tf_all self hacc).symm
    rw [hconv, ← promote_true_iff p self hpend]
    by_cases hb : (sameListPtr p.latestPendingSubchannelList self &&
        (p.subchannelList.isNone ||
          (match p.subchannelList with
           | some a => a.numReady == 0
           | none => true) ||
          decide (0 < self.numReady) ||
          self.numTransientFailure == self.numSubchannels)) = true
    · rw [if_pos hb]
      simp [hb]
    · rw [if_neg hb]
      constructor
      · rintro ⟨h1, h2⟩
        rw [hpend] at h2
        exact Option.noConfusion h2
      · intro h
        exact absurd h hb
  · intro hne
    rw [maybeUpdate_fst]
    have hfalse : sameListPtr p.latestPendingSubchannelList self = false := by
      cases hp : p.latestPendingSubchannelList with
      | none => rfl
      | some l => simp [sameListPtr, hne l hp]
    rw [hfalse]
    simp

instance (l : RoundRobinSubchannelList) : Decidable (countersAccurate l) := by
  unfold countersAccurate
  infer_instance

/-- One-entry pending list and a policy holding it, used as a concrete
promotion witness. -/
def selfW : RoundRobinSubchannelList := freshList 1 [4]

def pC1 : RoundRobin := { latestPendingSubchannelList := some selfW }

theorem rr_C1_witness :
    (maybeUpdateRoundRobinConnectivityStateLocked pC1 selfW okStatus 0).1.subchannelList
        = some selfW ∧
    (maybeUpdateRoundRobinConnectivityStateLocked pC1 selfW okStatus
        0).1.latestPendingSubchannelList = none :=
  ((rr_C1 pC1 selfW okStatus 0).1 rfl (by decide)
      (fun a ha => Option.noConfusion ha)).mpr (Or.inl rfl)

/-- A concrete environment: subchannel ids equal addresses, every poll
returns IDLE, zero randomness. -/
def envC : Env := ⟨fun a => a, fun _ => .Idle, 0⟩

/-- A freshly constructed policy. -/
def pInit : RoundRobin := ⟨none, none, false, 0⟩

/-- A policy whose active list is the one-entry list selfW. -/
def pAct : RoundRobin := { subchannelList := some selfW }

/-- Claim C6: with an active list present, an update carrying a resolver
failure changes nothing: the policy state is untouched (active and pending
lists, membership, logical states and counters included) and no effect,
in particular no state report, is emitted. -/
theorem rr_C6 (p : RoundRobin) (args : UpdateArgs) (env : Env)
    (l : RoundRobinSubchannelList) (hl : p.subchannelList = some l)
    (st : Status) (he : args.addresses = .err st) :
    updateLocked p args env = (p, []) := by
  simp [updateLocked, he, hl]

theorem rr_C6_witness :
    updateLocked pAct ⟨.err ⟨.otherError, "boom"⟩, "n"⟩ envC = (pAct, []) :=
  rr_C6 pAct ⟨.err ⟨.otherError, "boom"⟩, "n"⟩ envC selfW rfl ⟨.otherError, "boom"⟩ rfl

/-- UpdateState reports never contain re-resolution requests. -/
lemma count_reportEffects_rere (r : Option StateReport) :
    (reportEffects r).count Effect.requestReresolution = 0 := by
  cases r <;> simp [reportEffects]

/-- UpdateState reports never contain connection requests. -/
lemma count_reportEffects_conn (r : Option StateReport) (s : SubchannelId) :
    (reportEffects r).count (Effect.requestConnection s) = 0 := by
  cases r <;> simp [reportEffects]

/-- The watch-registration loop of StartWatchingLocked requests no
re-resolution. -/
lemma count_watchEffects_rere (subs : List RoundRobinSubchannelData) :
    (subs.flatMap (fun sd => [Effect.startWatch sd.subchannel,
        Effect.requestConnection sd.subchannel])).count Effect.requestReresolution = 0 := by
  rw [List.count_eq_zero]
  simp [List.mem_flatMap]

/-- Claim C7: each raw notification of TRANSIENT_FAILURE or IDLE delivered
through ProcessConnectivityChangeLocked triggers exactly one re-resolution
request and exactly one reconnection request on the entry's subchannel
(and any other raw notification triggers none), regardless of whether the
logical state changes; StartWatchingLocked, which contains the initial
synchronous poll, never requests re-resolution. -/
theorem rr_C7 (p : RoundRobin) (slot : Slot) (i : Nat) (raw : ConnectivityState)
    (rand : Nat) (l : RoundRobinSubchannelList) (hs : slotList p slot = some l)
    (e : RoundRobinSubchannelData) (he : l.subchannels[i]? = some e) :
    ((processConnectivityChangeLocked p slot i raw rand).2.count Effect.requestReresolution =
      if raw = .TransientFailure ∨ raw = .Idle then 1 else 0) ∧
    ((processConnectivityChangeLocked p slot i raw rand).2.count
        (Effect.requestConnection e.subchannel) =
      if raw = .TransientFailure ∨ raw = .Idle then 1 else 0) ∧
    (∀ (poll : Nat → ConnectivityState) (stf : Status),
      (startWatchingLocked p slot poll stf rand).2.count Effect.requestReresolution = 0) := by
  refine ⟨?_, ?_, ?_⟩
  · simp only [processConnectivityChangeLocked, hs, he]
    split
    · rw [List.count_append, count_reportEffects_rere]
      split <;> simp
    · split <;> simp
  · simp only [processConnectivityChangeLocked, hs, he]
    split
    · rw [List.count_append, count_reportEffects_conn]
      split <;> simp
    · split <;> simp
  · intro poll stf
    simp only [startWatchingLocked, hs]
    rw [List.count_append, count_watchEffects_rere, count_reportEffects_rere]

theorem rr_C7_witness :
    ((processConnectivityChangeLocked pAct .active 0 .TransientFailure 0).2.count
        Effect.requestReresolution = 1) ∧
    ((processConnectivityChangeLocked pAct .active 0 .TransientFailure 0).2.count
        (Effect.requestConnection 4) = 1) ∧
    ((startWatchingLocked pAct .active (fun _ => .Idle) okStatus 0).2.count
        Effect.requestReresolution = 0) := by
  have h := rr_C7 pAct .active 0 .TransientFailure 0 selfW rfl ⟨4, .Idle⟩ rfl
  exact ⟨h.1, h.2.1, h.2.2 (fun _ => .Idle) okStatus⟩

/-- String append is associative. -/
lemma string_append_assoc (a b c : String) : a ++ b ++ c = a ++ (b ++ c) := by
  cases a
  cases b
  cases c
  show String.mk _ = String.mk _
  exact congrArg String.mk (List.append_assoc _ _ _)

/-- A TRANSIENT_FAILURE report from the promotion-and-aggregation procedure
always carries exactly the status the caller passed in. -/
lemma maybeUpdate_tf_report (p : RoundRobin) (self : RoundRobinSubchannelList)
    (st : Status) (rand : Nat) (r : StateReport)
    (h : (maybeUpdateRoundRobinConnectivityStateLocked p self st rand).2 = some r)
    (htf : r.state = .TransientFailure) :
    r.status = st ∧ r.picker = .transientFailurePicker st := by
  rw [maybeUpdate_snd] at h
  split at h
  · split at h
    · cases Option.some.inj h
      simp at htf
    · split at h
      · cases Option.some.inj h
        simp at htf
      · split at h
        · cases Option.some.inj h
          exact ⟨rfl, rfl⟩
        · exact Option.noConfusion h
  · exact Option.noConfusion h

/-- A TRANSIENT_FAILURE report emitted during StartWatchingLocked carries
exactly the failure status passed to StartWatchingLocked. -/
lemma startWatching_tf_report (p : RoundRobin) (slot : Slot)
    (poll : Nat → ConnectivityState) (stf : Status) (rand : Nat) (r : StateReport)
    (h : Effect.reportState r ∈ (startWatchingLocked p slot poll stf rand).2)
    (htf : r.state = .TransientFailure) :
    r.status = stf ∧ r.picker = .transientFailurePicker stf := by
  unfold startWatchingLocked at h
  cases hsl : slotList p slot with
  | none =>
    rw [hsl] at h
    exact absurd h (by simp)
  | some l =>
    rw [hsl] at h
    dsimp only at h
    rw [List.mem_append] at h
    rcases h with h | h
    · exfalso
      rw [List.mem_flatMap] at h
      obtain ⟨sd, _, hmem⟩ := h
      simp at hmem
    · cases hrep : (maybeUpdateRoundRobinConnectivityStateLocked (setSlot p slot
          (syncPollPhase l poll)) (syncPollPhase l poll) stf rand).2 with
      | none =>
        rw [hrep] at h
        exact absurd h (by simp [reportEffects])
      | some rep =>
        rw [hrep] at h
        simp only [reportEffects, List.mem_singleton] at h
        cases Effect.reportState.inj h
        exact maybeUpdate_tf_report _ _ _ _ _ hrep htf

/-- Claim C8: with no active list, the failure status handed to the new
pending list's startup distinguishes the two cases: a successful address
result (including an empty one) yields the synthesized UNAVAILABLE status
whose message begins with the words empty address list, while a resolver
failure yields the resolver's own status; in both cases any
TRANSIENT_FAILURE report emitted by the update carries exactly that
status. -/
theorem rr_C8 (p : RoundRobin) (args : UpdateArgs) (env : Env)
    (hact : p.subchannelList = none) :
    (∀ addrs, args.addresses = .ok addrs →
      resolverStatusForTf args =
        unavailableError ("empty address list: " ++ args.resolutionNote) ∧
      (resolverStatusForTf args).code = .unavailable ∧
      ∃ rest, (resolverStatusForTf args).message = "empty address list" ++ rest) ∧
    (∀ st, args.addresses = .err st → resolverStatusForTf args = st) ∧
    (∀ r, Effect.reportState r ∈ (updateLocked p args env).2 →
      r.state = .TransientFailure →
      r.status = resolverStatusForTf args ∧
      r.picker = .transientFailurePicker (resolverStatusForTf args)) := by
  refine ⟨?_, ?_, ?_⟩
  · intro addrs hok
    unfold resolverStatusForTf
    rw [hok]
    refine ⟨rfl, rfl, ⟨": " ++ args.resolutionNote, ?_⟩⟩
    show ("empty address list: " ++ args.resolutionNote : String) =
      "empty address list" ++ (": " ++ args.resolutionNote)
    rw [← string_append_assoc]
    congr 1
  · intro st he
    unfold resolverStatusForTf
    rw [he]
  · intro r hmem htf
    unfold updateLocked at hmem
    cases hargs : args.addresses with
    | ok addrs =>
      rw [hargs] at hmem
      dsimp only at hmem
      exact startWatching_tf_report _ _ _ _ _ _ hmem htf
    | err st =>
      rw [hargs, hact] at hmem
      simp only [Option.isSome_none, Bool.false_eq_true, if_false] at hmem
      exact startWatching_tf_report _ _ _ _ _ _ hmem htf

theorem rr_C8_witness :
    (⟨.TransientFailure, ⟨.unavailable, "empty address list: x"⟩,
        .transientFailurePicker ⟨.unavailable, "empty address list: x"⟩⟩ : StateReport).status =
      resolverStatusForTf ⟨.ok [], "x"⟩ ∧
    (⟨.TransientFailure, ⟨.unavailable, "empty address list: x"⟩,
        .transientFailurePicker ⟨.unavailable, "empty address list: x"⟩⟩ : StateReport).picker =
      .transientFailurePicker (resolverStatusForTf ⟨.ok [], "x"⟩) :=
  (rr_C8 pInit ⟨.ok [], "x"⟩ envC rfl).2.2
    ⟨.TransientFailure, ⟨.unavailable, "empty address list: x"⟩,
      .transientFailurePicker ⟨.unavailable, "empty address list: x"⟩⟩
    (by decide) (by decide)

/-- StartWatchingLocked on the pending list of a policy with no active list
always promotes the pending list (the promotion guard's no-active-list
disjunct holds). -/
lemma startWatching_promotes_first (p : RoundRobin) (l : RoundRobinSubchannelList)
    (hpend : p.latestPendingSubchannelList = some l) (hact : p.subchannelList = none)
    (poll : Nat → ConnectivityState) (stf : Status) (rand : Nat) :
    (startWatchingLocked p .pending poll stf rand).1.subchannelList =
      some (syncPollPhase l poll) := by
  unfold startWatchingLocked
  rw [show slotList p .pending = some l from hpend]
  dsimp only
  rw [maybeUpdate_fst]
  rw [if_pos (by simp [setSlot, sameListPtr, hact])]

/-- A successful update processed with no active list installs a new active
list (the new pending list is created, watched, and immediately
promoted). -/
lemma updateLocked_ok_creates (p : RoundRobin) (addrs : List Address)
    (note : String) (env : Env) (hact : p.subchannelList = none) :
    (updateLocked p ⟨.ok addrs, note⟩ env).1.subchannelList ≠ none := by
  have h := startWatching_promotes_first
    { p with
      latestPendingSubchannelList := some
        { id := p.nextListId,
          subchannels := addrs.map (fun a => { subchannel := env.createSubchannel a }) },
      nextListId := p.nextListId + 1 }
    { id := p.nextListId,
      subchannels := addrs.map (fun a => { subchannel := env.createSubchannel a }) }
    rfl hact env.poll (resolverStatusForTf ⟨.ok addrs, note⟩) env.rand
  intro hcontra
  unfold updateLocked at hcontra
  dsimp only at hcontra
  rw [h] at hcontra
  exact Option.noConfusion hcontra

theorem rr_C9_counterexample :
    (updateLocked (shutdownLocked pInit) ⟨.ok [5], ""⟩ envC).1 ≠ shutdownLocked pInit := by
  decide

/-- Claim C9 amended: after Shutdown has run, a second Shutdown is a safe
no-op that changes no state; but Update and ResetBackoff are not guarded by
the shutdown flag (which ShutdownLocked sets and nothing ever reads): a
subsequent successful Update is processed normally and installs a new
subchannel list, and a subsequent ResetBackoff dereferences the absent
active list (a crash, modelled as none). -/
theorem rr_C9_amended (p : RoundRobin) (addrs : List Address) (note : String)
    (env : Env) :
    shutdownLocked (shutdownLocked p) = shutdownLocked p ∧
    resetBackoffLocked (shutdownLocked p) = none ∧
    (updateLocked (shutdownLocked p) ⟨.ok addrs, note⟩ env).1.subchannelList ≠ none :=
  ⟨rfl, rfl, updateLocked_ok_creates (shutdownLocked p) addrs note env rfl⟩

/-- countP after a point update, in additive form. -/
lemma countP_set_add {α : Type} (q : α → Bool) (l : List α) (i : Nat) (e : α)
    (a : α) (ha : l[i]? = some a) :
    (l.set i e).countP q + (if q a then 1 else 0) =
      l.countP q + (if q e then 1 else 0) := by
  induction l generalizing i with
  | nil => simp at ha
  | cons x t ihl =>
    cases i with
    | zero =>
      have hx : x = a := by simpa using ha
      subst hx
      simp only [List.set_cons_zero, List.countP_cons]
      omega
    | succ n =>
      have ha' : t[n]? = some a := by simpa using ha
      have := ihl n ha'
      simp only [List.set_cons_succ, List.countP_cons]
      omega

/-- The invariant actually maintained by a subchannel list: the counters
agree with the entry states, and no entry is in logical SHUTDOWN. -/
def goodList (l : RoundRobinSubchannelList) : Prop :=
  countersAccurate l ∧
  ∀ sd ∈ l.subchannels, sd.logicalConnectivityState ≠ .Shutdown

/-- A freshly constructed list satisfies the invariant. -/
lemma goodList_fresh (id : Nat) (subs : List SubchannelId) :
    goodList (freshList id subs) := by
  have hmem : ∀ sd ∈ (freshList id subs).subchannels,
      sd.logicalConnectivityState = .Idle := by
    intro sd hsd
    simp only [freshList, List.mem_map] at hsd
    obtain ⟨s, _, rfl⟩ := hsd
    rfl
  constructor
  · refine ⟨Eq.symm (List.countP_eq_zero.2 ?_), Eq.symm (List.countP_eq_zero.2 ?_),
      Eq.symm (List.countP_eq_zero.2 ?_)⟩
    all_goals (intro x hx; rw [hmem x hx]; decide)
  · intro sd hsd
    rw [hmem sd hsd]
    decide

/-- The logical-state update function preserves the list invariant, for any
raw state other than SHUTDOWN. -/
lemma goodList_update (l : RoundRobinSubchannelList) (i : Nat)
    (raw : ConnectivityState) (hraw : raw ≠ .Shutdown) (hg : goodList l) :
    goodList (updateLogicalConnectivityStateLocked l i raw).1 := by
  obtain ⟨hacc, hsh⟩ := hg
  cases h : l.subchannels[i]? with
  | none =>
    rw [updateLogical_none l i raw h]
    exact ⟨hacc, hsh⟩
  | some sd =>
    by_cases h1 : sd.logicalConnectivityState = .TransientFailure ∧ raw ≠ .Ready
    · rw [updateLogical_sticky l i raw sd h h1.1 h1.2]
      exact ⟨hacc, hsh⟩
    · by_cases h2 : sd.logicalConnectivityState = (if raw = .Idle then .Connecting else raw)
      · rw [updateLogical_noChange l i raw sd h h1 h2]
        exact ⟨hacc, hsh⟩
      · rw [updateLogical_change l i raw sd h h1 h2]
        obtain ⟨hlt, heq⟩ := List.getElem?_eq_some.1 h
        have hmem : sd ∈ l.subchannels := heq ▸ List.getElem_mem hlt
        have hss : sd.logicalConnectivityState ≠ .Shutdown := hsh sd hmem
        constructor
        · have hR := countP_set_add
            (fun x => x.logicalConnectivityState == ConnectivityState.Ready)
            l.subchannels i { sd with logicalConnectivityState :=
              (if raw = .Idle then .Connecting else raw) } sd h
          have hC := countP_set_add
            (fun x => x.logicalConnectivityState == ConnectivityState.Connecting)
            l.subchannels i { sd with logicalConnectivityState :=
              (if raw = .Idle then .Connecting else raw) } sd h
          have hT := countP_set_add
            (fun x => x.logicalConnectivityState == ConnectivityState.TransientFailure)
            l.subchannels i { sd with logicalConnectivityState :=
              (if raw = .Idle then .Connecting else raw) } sd h
          obtain ⟨hr, hc, ht⟩ := hacc
          unfold countState at hr hc ht
          unfold countersAccurate countState
          cases hold : sd.logicalConnectivityState <;> cases raw <;>
            simp_all [updateStateCountersLocked] <;> omega
        · intro x hx
          rcases List.mem_or_eq_of_mem_set hx with hx' | hx'
          · exact hsh x hx'
          · rw [hx']
            cases raw <;> simp_all

/-- The synchronous poll loop preserves the list invariant when no poll
returns SHUTDOWN. -/
lemma goodList_syncPoll (l : RoundRobinSubchannelList)
    (poll : Nat → ConnectivityState) (hpoll : ∀ i, poll i ≠ .Shutdown)
    (hg : goodList l) : goodList (syncPollPhase l poll) := by
  unfold syncPollPhase
  generalize (List.range l.subchannels.length) = idxs
  induction idxs generalizing l with
  | nil => exact hg
  | cons j t ih =>
    simp only [List.foldl_cons]
    apply ih
    by_cases hj : poll j ≠ .Idle
    · rw [if_pos hj]
      exact goodList_update l j (poll j) (hpoll j) hg
    · rw [if_neg hj]
      exact hg

/-- A sequence of raw notifications preserves the list invariant when none
of them carries SHUTDOWN. -/
lemma goodList_applyNotifications (l : RoundRobinSubchannelList)
    (events : List (Nat × ConnectivityState))
    (hev : ∀ e ∈ events, e.2 ≠ .Shutdown) (hg : goodList l) :
    goodList (applyNotifications l events) := by
  unfold applyNotifications
  induction events generalizing l with
  | nil => exact hg
  | cons e t ih =>
    simp only [List.foldl_cons]
    exact ih _ (fun x hx => hev x (List.mem_cons_of_mem e hx))
      (goodList_update l e.1 e.2 (hev e (List.mem_cons_self e t)) hg)

/-- For a list of entries none of which is SHUTDOWN, the three tracked
buckets add up to the number of non-IDLE entries. -/
lemma countP_states_sum (xs : List RoundRobinSubchannelData)
    (hsh : ∀ sd ∈ xs, sd.logicalConnectivityState ≠ .Shutdown) :
    xs.countP (fun sd => sd.logicalConnectivityState == ConnectivityState.Ready) +
      xs.countP (fun sd => sd.logicalConnectivityState == ConnectivityState.Connecting) +
      xs.countP (fun sd => sd.logicalConnectivityState == ConnectivityState.TransientFailure) =
    xs.countP (fun sd => sd.logicalConnectivityState != ConnectivityState.Idle) := by
  induction xs with
  | nil => rfl
  | cons x t ih =>
    have hx := hsh x (List.mem_cons_self x t)
    have ih' := ih (fun sd hsd => hsh sd (List.mem_cons_of_mem x hsd))
    cases hlog : x.logicalConnectivityState <;>
      simp_all [List.countP_cons] <;> omega

/-- On the invariant, the counter sum counts exactly the non-IDLE entries. -/
lemma goodList_sum (l : RoundRobinSubchannelList) (hg : goodList l) :
    l.numReady + l.numConnecting + l.numTransientFailure =
      l.subchannels.countP
        (fun sd => sd.logicalConnectivityState != ConnectivityState.Idle) := by
  obtain ⟨⟨hr, hc, ht⟩, hsh⟩ := hg
  unfold countState at hr hc ht
  rw [hr, hc, ht]
  exact countP_states_sum l.subchannels hsh

/-- Claim C5 as stated is false: a one-address update whose subchannel
polls IDLE installs (after StartWatchingLocked completes) an active list
with one entry whose counter sum is zero, because an entry whose logical
state is still IDLE is counted in no bucket. -/
theorem rr_C5_counterexample :
    ((updateLocked pInit ⟨.ok [5], ""⟩ envC).1.subchannelList.map
        (fun l => l.numReady + l.numConnecting + l.numTransientFailure)) ≠
      ((updateLocked pInit ⟨.ok [5], ""⟩ envC).1.subchannelList.map
        (fun l => l.subchannels.length)) := by
  decide

/-- Claim C5 amended: for every subchannel list, from the moment
StartWatchingLocked's synchronous poll completes and after every subsequent
notification (no SHUTDOWN ever being delivered), the sum
numReady + numConnecting + numTransientFailure equals the number of entries
whose logical state is not IDLE; the sum equals the full entry count only
once every entry has left IDLE. -/
theorem rr_C5_amended (id : Nat) (subs : List SubchannelId)
    (poll : Nat → ConnectivityState) (events : List (Nat × ConnectivityState))
    (hpoll : ∀ i, poll i ≠ .Shutdown) (hev : ∀ e ∈ events, e.2 ≠ .Shutdown) :
    (applyNotifications (syncPollPhase (freshList id subs) poll) events).numReady +
      (applyNotifications (syncPollPhase (freshList id subs) poll) events).numConnecting +
      (applyNotifications (syncPollPhase (freshList id subs) poll) events).numTransientFailure =
    (applyNotifications (syncPollPhase (freshList id subs) poll) events).subchannels.countP
      (fun sd => sd.logicalConnectivityState != ConnectivityState.Idle) :=
  goodList_sum _
    (goodList_applyNotifications _ events hev
      (goodList_syncPoll _ poll hpoll (goodList_fresh id subs)))

theorem rr_C5_amended_witness :
    (applyNotifications (syncPollPhase (freshList 0 [5]) (fun _ => .Idle))
        [(0, .Connecting)]).numReady +
      (applyNotifications (syncPollPhase (freshList 0 [5]) (fun _ => .Idle))
        [(0, .Connecting)]).numConnecting +
      (applyNotifications (syncPollPhase (freshList 0 [5]) (fun _ => .Idle))
        [(0, .Connecting)]).numTransientFailure =
    (applyNotifications (syncPollPhase (freshList 0 [5]) (fun _ => .Idle))
        [(0, .Connecting)]).subchannels.countP
      (fun sd => sd.logicalConnectivityState != ConnectivityState.Idle) :=
  rr_C5_amended 0 [5] (fun _ => .Idle) [(0, .Connecting)]
    (fun _ => (by decide : ConnectivityState.Idle ≠ ConnectivityState.Shutdown))
    (by decide)
